import Mathlib

/-!
Verification of the MindSQL schema-validation and SQL-extraction engine.

The Python sources under scrutiny are validator.py (extract_sql,
validate_sql_schema, validate_plot_sql), schema_manager.py
(update_schema_context) and database.py (load_schema_map).  Strings are
embedded as lists of characters and each Python string primitive used by the
code (strip, upper, startswith, split, replace, membership) is given an
executable Lean counterpart with the same semantics on ASCII text.  The
external sql-metadata parser is not code of this repository; the validator is
therefore parameterised by the parser's outcome (its table list and column
list, or a parse failure).
-/

set_option maxRecDepth 4000

namespace MindSQL

/-- Characters of a Lean string literal, the working representation of a
Python string. -/
def toL (s : String) : List Char := s.toList

/-- Python str.strip()'s whitespace test, restricted to the ASCII whitespace
characters. -/
def isPySpace (c : Char) : Bool :=
  c == ' ' || c == '\t' || c == '\n' || c == '\r' || c == '\x0b' || c == '\x0c'

/-- Python str.upper() on ASCII text: uppercase every character. -/
def upperL (l : List Char) : List Char := l.map Char.toUpper

/-- Removal of trailing whitespace, structurally recursive. -/
def stripTrail : List Char → List Char
  | [] => []
  | c :: rest =>
    let r := stripTrail rest
    if r.isEmpty && isPySpace c then [] else c :: r

/-- Python str.strip(): drop leading and trailing whitespace. -/
def stripL (l : List Char) : List Char := stripTrail (l.dropWhile isPySpace)

/-- Python str.startswith(tuple): some listed string is a prefix. -/
def startswithAny (l : List Char) (ps : List (List Char)) : Bool :=
  ps.any (fun p => p.isPrefixOf l)

/-- Python str.split(sep) for a one-character separator: empty segments are
kept, and the result always has one more segment than there are separator
occurrences. -/
def splitChar (sep : Char) : List Char → List (List Char)
  | [] => [[]]
  | c :: rest =>
    if c == sep then [] :: splitChar sep rest
    else
      match splitChar sep rest with
      | [] => [[c]]
      | s :: ss => (c :: s) :: ss

/-- The keyword allow-list of extract_sql in validator.py, in source order. -/
def KEYWORDS : List (List Char) :=
  [toL "SELECT", toL "INSERT", toL "UPDATE", toL "DELETE", toL "CREATE",
   toL "DROP", toL "SET", toL "ALTER", toL "BEGIN", toL "WITH", toL "SHOW",
   toL "DESCRIBE"]

/-- Python substring membership (the `in` operator on strings). -/
def isInfixL (pat : List Char) : List Char → Bool
  | [] => pat.isEmpty
  | c :: rest => pat.isPrefixOf (c :: rest) || isInfixL pat rest

/-- Whether the raw model text contains a fenced code block marker.  On
inputs without one, both regular-expression searches of extract_sql fail and
the function takes its raw-text path, which is what `extract_sql` below
embeds. -/
def hasCodeFence (text : List Char) : Bool := isInfixL (toL "```") text

/-- extract_sql of validator.py on inputs that contain no fenced code block:
trim the text; if its upper-cased form starts with an allow-listed keyword,
split on ';', keep the trimmed non-empty segments whose upper-cased form
starts with an allow-listed keyword, and rejoin them with ";\n" plus a
trailing ';' (falling back to the whole trimmed text when no segment
survives); otherwise report no SQL found. -/
def extract_sql (text : List Char) : Option (List Char) :=
  let clean_text := stripL text
  if startswithAny (upperL clean_text) KEYWORDS then
    let valid_statements :=
      ((splitChar ';' clean_text).map stripL).filter
        (fun stmt => !stmt.isEmpty && startswithAny (upperL stmt) KEYWORDS)
    if !valid_statements.isEmpty then
      some (List.intercalate (toL ";\n") valid_statements ++ toL ";")
    else
      some clean_text
  else
    none

/-- The raw-text extraction result as the specification words it: split the
trimmed text on ';', keep exactly the segments that are non-empty after
trimming and whose upper-cased form starts with an allow-listed keyword, and
rejoin the survivors with ";\n" plus a trailing ';' in original order. -/
def extract_spec (text : List Char) : List Char :=
  let segments := (splitChar ';' (stripL text)).map stripL
  let surviving :=
    segments.filter (fun s => !s.isEmpty && startswithAny (upperL s) KEYWORDS)
  List.intercalate (toL ";\n") surviving ++ toL ";"

theorem toUpper_of_pySpace {c : Char} (h : isPySpace c = true) :
    c.toUpper = c := by
  simp only [isPySpace, Bool.or_eq_true, beq_iff_eq] at h
  rcases h with ((((h | h) | h) | h) | h) | h <;> (subst h; decide)

theorem beq_semi_eq_false_of_upper {c k : Char} (hk : c.toUpper = k)
    (h : (k == ';') = false) : (c == ';') = false := by
  by_cases hc : c = ';'
  · subst hc
    have : k = ';' := by rw [← hk]; decide
    subst this
    exact absurd h (by decide)
  · exact beq_eq_false_iff_ne.mpr hc

theorem pySpace_eq_false_of_upper {c k : Char} (hk : c.toUpper = k)
    (h : isPySpace k = false) : isPySpace c = false := by
  by_cases hc : isPySpace c = true
  · rw [← hk, toUpper_of_pySpace hc] at h
    rw [hc] at h
    cases h
  · exact Bool.eq_false_iff.mpr hc

theorem upperL_nil : upperL [] = [] := rfl

theorem upperL_cons (c : Char) (l : List Char) :
    upperL (c :: l) = c.toUpper :: upperL l := rfl

/-- A keyword prefix free of ';' survives truncation at the first ';'. -/
theorem isPrefixOf_upper_takeWhile (K : List Char) :
    ∀ s : List Char, (∀ c ∈ K, (c == ';') = false) →
      K.isPrefixOf (upperL s) = true →
      K.isPrefixOf (upperL (s.takeWhile (fun c => !(c == ';')))) = true := by
  induction K with
  | nil => intro s _ _; simp [List.isPrefixOf]
  | cons k K ih =>
    intro s hK hpre
    cases s with
    | nil => simp [upperL, List.isPrefixOf] at hpre
    | cons c s =>
      rw [upperL_cons, List.isPrefixOf_cons₂] at hpre
      have hparts := (Bool.and_eq_true _ _).mp hpre
      have hkc : k = c.toUpper := eq_of_beq hparts.1
      have hcsemi : (c == ';') = false :=
        beq_semi_eq_false_of_upper hkc.symm (hK k (List.mem_cons_self k K))
      rw [List.takeWhile_cons, hcsemi]
      simp only [Bool.not_false, if_pos]
      rw [upperL_cons, List.isPrefixOf_cons₂, Bool.and_eq_true]
      exact ⟨hparts.1, ih s (fun c hc => hK c (List.mem_cons_of_mem k hc)) hparts.2⟩

/-- A keyword prefix made of non-whitespace characters survives trailing
whitespace removal. -/
theorem isPrefixOf_upper_stripTrail (K : List Char) :
    ∀ s : List Char, (∀ c ∈ K, isPySpace c = false) →
      K.isPrefixOf (upperL s) = true →
      K.isPrefixOf (upperL (stripTrail s)) = true := by
  induction K with
  | nil => intro s _ _; simp [List.isPrefixOf]
  | cons k K ih =>
    intro s hK hpre
    cases s with
    | nil => simp [upperL, List.isPrefixOf] at hpre
    | cons c s =>
      rw [upperL_cons, List.isPrefixOf_cons₂] at hpre
      have hparts := (Bool.and_eq_true _ _).mp hpre
      have hkc : k = c.toUpper := eq_of_beq hparts.1
      have hcsp : isPySpace c = false :=
        pySpace_eq_false_of_upper hkc.symm (hK k (List.mem_cons_self k K))
      show List.isPrefixOf (k :: K)
        (upperL (if (stripTrail s).isEmpty && isPySpace c then []
                 else c :: stripTrail s)) = true
      rw [hcsp, Bool.and_false, if_neg (by simp)]
      rw [upperL_cons, List.isPrefixOf_cons₂, Bool.and_eq_true]
      exact ⟨hparts.1, ih s (fun c hc => hK c (List.mem_cons_of_mem k hc)) hparts.2⟩

/-- Text carrying a non-whitespace keyword prefix has no leading whitespace. -/
theorem dropWhile_pySpace_of_keyword {K s : List Char} (hne : K ≠ [])
    (hsp : ∀ c ∈ K, isPySpace c = false)
    (hpre : K.isPrefixOf (upperL s) = true) :
    s.dropWhile isPySpace = s := by
  cases K with
  | nil => exact absurd rfl hne
  | cons k K =>
    cases s with
    | nil => simp [upperL, List.isPrefixOf] at hpre
    | cons c s =>
      rw [upperL_cons, List.isPrefixOf_cons₂] at hpre
      have hparts := (Bool.and_eq_true _ _).mp hpre
      have hkc : k = c.toUpper := eq_of_beq hparts.1
      have hcsp : isPySpace c = false :=
        pySpace_eq_false_of_upper hkc.symm (hsp k (List.mem_cons_self k K))
      rw [List.dropWhile_cons, hcsp]
      simp

theorem ne_nil_of_isPrefixOf_upper {K s : List Char} (hne : K ≠ [])
    (hpre : K.isPrefixOf (upperL s) = true) : s ≠ [] := by
  cases K with
  | nil => exact absurd rfl hne
  | cons k K =>
    cases s with
    | nil => simp [upperL, List.isPrefixOf] at hpre
    | cons c s => simp

/-- The first segment of a ';' split is the text up to the first ';'. -/
theorem splitChar_head (sep : Char) (l : List Char) :
    ∃ t, splitChar sep l = (l.takeWhile (fun c => !(c == sep))) :: t := by
  induction l with
  | nil => exact ⟨[], rfl⟩
  | cons c rest ih =>
    obtain ⟨t, ht⟩ := ih
    by_cases h : (c == sep) = true
    · exact ⟨splitChar sep rest, by simp [splitChar, h, List.takeWhile_cons]⟩
    · have h' : (c == sep) = false := by simpa using h
      exact ⟨t, by simp [splitChar, h', List.takeWhile_cons, ht]⟩

theorem stripL_eq_stripTrail {s : List Char} (h : s.dropWhile isPySpace = s) :
    stripL s = stripTrail s := by
  unfold stripL
  rw [h]

/-- Every allow-listed keyword is non-empty and free of whitespace and of
';' characters. -/
theorem keywords_wf :
    ∀ K ∈ KEYWORDS, K ≠ [] ∧ ∀ c ∈ K, isPySpace c = false ∧ (c == ';') = false := by
  decide

/-- Claim C2 (amended): on fence-free text whose trimmed upper-cased form
starts with an allow-listed keyword as a string prefix, extract_sql splits
the trimmed text on ';', keeps exactly the segments that are non-empty after
trimming and whose upper-cased form starts with an allow-listed keyword as a
string prefix, and returns the survivors rejoined with ";\n" plus a trailing
';' in original order; on fence-free text without such a keyword prefix it
returns the absence marker without any splitting. -/
theorem extract_sql_raw_keyword_path :
    (∀ text : List Char, hasCodeFence text = false →
        startswithAny (upperL (stripL text)) KEYWORDS = true →
        extract_sql text = some (extract_spec text))
  ∧ (∀ text : List Char, hasCodeFence text = false →
        startswithAny (upperL (stripL text)) KEYWORDS = false →
        extract_sql text = none) := by
  constructor
  case right =>
    intro text _ h
    simp only [extract_sql]
    rw [if_neg (by simp [h])]
  case left =>
    intro text _hfence hgate
    have hex : ∃ K ∈ KEYWORDS, K.isPrefixOf (upperL (stripL text)) = true := by
      simpa [startswithAny, List.any_eq_true] using hgate
    obtain ⟨K, hKmem, hKpre⟩ := hex
    obtain ⟨hKne, hKchars⟩ := keywords_wf K hKmem
    obtain ⟨t, ht⟩ := splitChar_head ';' (stripL text)
    have hseg : K.isPrefixOf
        (upperL ((stripL text).takeWhile (fun c => !(c == ';')))) = true :=
      isPrefixOf_upper_takeWhile K (stripL text)
        (fun c hc => (hKchars c hc).2) hKpre
    have hdrop : ((stripL text).takeWhile
        (fun c => !(c == ';'))).dropWhile isPySpace
          = (stripL text).takeWhile (fun c => !(c == ';')) :=
      dropWhile_pySpace_of_keyword hKne (fun c hc => (hKchars c hc).1) hseg
    have hstrip : K.isPrefixOf
        (upperL (stripL ((stripL text).takeWhile (fun c => !(c == ';'))))) = true := by
      rw [stripL_eq_stripTrail hdrop]
      exact isPrefixOf_upper_stripTrail K _ (fun c hc => (hKchars c hc).1) hseg
    have hne : stripL ((stripL text).takeWhile (fun c => !(c == ';'))) ≠ [] :=
      ne_nil_of_isPrefixOf_upper hKne hstrip
    have hkeep : (!(stripL ((stripL text).takeWhile (fun c => !(c == ';')))).isEmpty
        && startswithAny
             (upperL (stripL ((stripL text).takeWhile (fun c => !(c == ';')))))
             KEYWORDS) = true := by
      rw [Bool.and_eq_true]
      constructor
      · simpa [List.isEmpty_iff] using hne
      · exact List.any_eq_true.mpr ⟨K, hKmem, hstrip⟩
    simp only [extract_sql, extract_spec]
    rw [if_pos hgate, ht]
    rw [List.map_cons, List.filter_cons, if_pos hkeep]
    rw [if_pos (by simp)]

/-- Claim C2 fails as stated: extract_sql returns the absence marker when the
trimmed text does not itself start with an allow-listed keyword (instead of
splitting and keeping the keyword-led segment), and it keeps a segment whose
upper-cased leading token is not in the allow-list because it matches
keywords as string prefixes. -/
theorem extract_sql_cex :
    hasCodeFence (toL "The answer is 42; SELECT 1") = false
  ∧ extract_sql (toL "The answer is 42; SELECT 1") = none
  ∧ hasCodeFence (toL "SELECTED_VALUE FROM X") = false
  ∧ extract_sql (toL "SELECTED_VALUE FROM X")
      = some (toL "SELECTED_VALUE FROM X;") := by
  refine ⟨by decide, by decide, by decide, by decide⟩

theorem extract_sql_raw_keyword_path_witness :
    extract_sql (toL "SELECT id FROM users; and then magic happens")
      = some (extract_spec (toL "SELECT id FROM users; and then magic happens")) :=
  extract_sql_raw_keyword_path.1 _ (by decide) (by decide)

/-!
The Schema Validator of validator.py.

A schema map is a Python dict from table name to a value that is either a
plain list of column names (the shape schema_manager.update_schema_context
installs) or a dict with the keys "columns" and "foreign_keys" (the shape
database.load_schema_map installs).  The validator probes those values with
Python's `in` operator, which tests element membership on a list but key
membership on a dict; `pyMem` reproduces exactly that.
-/

/-- A foreign-key record as SQLAlchemy's inspector reports it. -/
structure FKInfo where
  constrained_columns : List (List Char)
  referred_table : List Char
  referred_columns : List (List Char)

/-- A column as the inspector reports it: name and rendered type. -/
structure ColumnInfo where
  name : List Char
  type : List Char

/-- One table of an introspected database: name, columns in reported order,
primary-key columns and foreign keys. -/
structure TableInfo where
  name : List Char
  columns : List ColumnInfo
  pk_columns : List (List Char)
  fks : List FKInfo

/-- A schema-map value: plain column list, or the structured descriptor dict
with keys "columns" and "foreign_keys". -/
inductive TableDesc where
  | plainCols (cols : List (List Char))
  | descriptor (columns : List (List Char)) (foreign_keys : List FKInfo)

/-- The in-memory schema map: a dict from table name to descriptor, embedded
as an association list with distinct keys. -/
abbrev SchemaMap := List (List Char × TableDesc)

/-- Python dict lookup. -/
def lookupTable (m : SchemaMap) (k : List Char) : Option TableDesc :=
  match m with
  | [] => none
  | (k', v) :: rest => if k' = k then some v else lookupTable rest k

/-- Python `col in value` on a schema-map value: element membership for the
plain list variant, key membership (the literal keys "columns" and
"foreign_keys") for the dict variant. -/
def pyMem (col : List Char) (d : TableDesc) : Bool :=
  match d with
  | .plainCols cols => cols.contains col
  | .descriptor _ _ => col == toL "columns" || col == toL "foreign_keys"

/-- load_schema_map of database.py: every table maps to the structured
descriptor dict {columns, foreign_keys} (the foreign-key dicts keep the
inspector's values under renamed keys). -/
def load_schema_map (db : List TableInfo) : SchemaMap :=
  db.map (fun t =>
    (t.name, TableDesc.descriptor (t.columns.map ColumnInfo.name) t.fks))

/-- The outcome of sql_metadata.Parser on a statement: its table list and
column-reference list.  The parser is an external library, so the validator
is parameterised by this outcome; `none` stands for the parser raising. -/
structure ParseResult where
  tables : List (List Char)
  columns : List (List Char)

/-- The fast-pass prefixes of validate_sql_schema, each with its trailing
space exactly as in the source. -/
def BYPASS_KEYWORDS : List (List Char) :=
  [toL "SHOW ", toL "DESCRIBE ", toL "CREATE ", toL "DROP ", toL "ALTER "]

/-- The per-column check of validate_sql_schema: references containing a
parenthesis or '*' are skipped; a qualified table.column fails only when the
qualifier is a known table whose value does not contain the column; a bare
column must occur in some referenced table that is a key of the map. -/
def column_ok (schema_map : SchemaMap) (sql_tables : List (List Char))
    (col_ref : List Char) : Bool :=
  if col_ref.contains '(' || col_ref.contains '*' then true
  else if col_ref.contains '.' then
    let table_part := col_ref.takeWhile (fun c => !(c == '.'))
    let col_part := (col_ref.dropWhile (fun c => !(c == '.'))).drop 1
    match lookupTable schema_map table_part with
    | none => true
    | some d => pyMem col_part d
  else
    sql_tables.any (fun t =>
      match lookupTable schema_map t with
      | none => false
      | some d => pyMem col_ref d)

/-- validate_sql_schema of validator.py.  The source returns False at the
first unmatched table or failing column; for the Boolean result that loop
equals the any/all forms used here.  A `none` parse outcome takes the
exception handler's path, which returns False. -/
def validate_sql_schema (sql_code : List Char) (schema_map : SchemaMap)
    (parsed : Option ParseResult) : Bool :=
  let upper_sql := upperL (stripL sql_code)
  if startswithAny upper_sql BYPASS_KEYWORDS then true
  else
    match parsed with
    | none => false
    | some p =>
      if p.tables.any (fun t => (lookupTable schema_map t).isNone) then false
      else p.columns.all (column_ok schema_map p.tables)

/-- Claim C3 (amended): any SQL whose trimmed upper-cased form starts with a
fast-pass keyword followed by a space is accepted for every schema map and
every parser outcome — the schema map and the parser are never consulted. -/
theorem validate_fastpass_ddl (sql : List Char) (schema_map : SchemaMap)
    (parsed : Option ParseResult)
    (h : startswithAny (upperL (stripL sql)) BYPASS_KEYWORDS = true) :
    validate_sql_schema sql schema_map parsed = true := by
  simp only [validate_sql_schema]
  rw [if_pos h]

theorem validate_fastpass_ddl_witness :
    validate_sql_schema (toL "DROP TABLE users") [] none = true :=
  validate_fastpass_ddl _ _ _ (by decide)

/-- Claim C3 fails as stated: this SQL's upper-cased form starts with CREATE,
yet with an empty schema map it is rejected, because the fast-pass prefixes
require a space after the keyword and here a newline follows it, so the
table check runs and fails. -/
theorem validate_fastpass_cex :
    (toL "CREATE").isPrefixOf
        (upperL (stripL (toL "CREATE\nTABLE t (x INT)"))) = true
  ∧ validate_sql_schema (toL "CREATE\nTABLE t (x INT)") []
      (some ⟨[toL "t"], []⟩) = false := by
  refine ⟨by decide, by decide⟩

/-- Claim C4 (amended): on a non-fast-pass statement whose parse fails, the
validator follows the strict fail-closed policy and returns false for every
schema map. -/
theorem validate_parse_failure_rejects (sql : List Char)
    (schema_map : SchemaMap)
    (h : startswithAny (upperL (stripL sql)) BYPASS_KEYWORDS = false) :
    validate_sql_schema sql schema_map none = false := by
  simp only [validate_sql_schema]
  rw [if_neg (by simp [h])]

theorem validate_parse_failure_rejects_witness :
    validate_sql_schema (toL "this is not SQL at all (((") [] none = false :=
  validate_parse_failure_rejects _ _ (by decide)

/-- Claim C4 fails as stated: a non-fast-pass input whose parse fails is
rejected, not accepted leniently. -/
theorem validate_parse_failure_cex :
    startswithAny (upperL (stripL (toL "SELEC name FRO users")))
        BYPASS_KEYWORDS = false
  ∧ validate_sql_schema (toL "SELEC name FRO users")
      [(toL "users", TableDesc.plainCols [toL "id"])] none = false := by
  refine ⟨by decide, by decide⟩

/-- Claim C5: a non-fast-pass statement that parses and references a table
that is not a key of the schema map is rejected. -/
theorem validate_missing_table (sql : List Char) (schema_map : SchemaMap)
    (p : ParseResult) (t : List Char)
    (hfast : startswithAny (upperL (stripL sql)) BYPASS_KEYWORDS = false)
    (hmem : t ∈ p.tables)
    (hmiss : lookupTable schema_map t = none) :
    validate_sql_schema sql schema_map (some p) = false := by
  simp only [validate_sql_schema]
  rw [if_neg (by simp [hfast])]
  rw [if_pos (List.any_eq_true.mpr ⟨t, hmem, by rw [hmiss]; rfl⟩)]

theorem validate_missing_table_witness :
    validate_sql_schema (toL "SELECT id FROM ghosts") []
      (some ⟨[toL "ghosts"], [toL "id"]⟩) = false :=
  validate_missing_table _ _ _ (toL "ghosts") (by decide) (by decide) rfl

/-- Claim C10: a non-fast-pass statement that parses, contains a bare column
reference (no parenthesis, no '*', no '.'), and none of whose referenced
tables is a key of the schema map, is rejected — even when the column name
occurs in some table of the map. -/
theorem validate_unqualified_column_no_known_table (sql : List Char)
    (schema_map : SchemaMap) (p : ParseResult) (col : List Char)
    (hfast : startswithAny (upperL (stripL sql)) BYPASS_KEYWORDS = false)
    (hcol : col ∈ p.columns)
    (hnopar : col.contains '(' = false)
    (hnostar : col.contains '*' = false)
    (hnodot : col.contains '.' = false)
    (htab : ∀ t ∈ p.tables, lookupTable schema_map t = none) :
    validate_sql_schema sql schema_map (some p) = false := by
  simp only [validate_sql_schema]
  rw [if_neg (by simp [hfast])]
  have hok : column_ok schema_map p.tables col = false := by
    simp only [column_ok]
    rw [if_neg (by rw [hnopar, hnostar]; simp), if_neg (by rw [hnodot]; simp)]
    rw [List.any_eq_false]
    intro t ht
    rw [htab t ht]
    simp
  by_cases hany : p.tables.any (fun t => (lookupTable schema_map t).isNone) = true
  · rw [if_pos hany]
  · rw [if_neg hany]
    rw [List.all_eq_false]
    exact ⟨col, hcol, by rw [hok]; exact Bool.false_ne_true⟩

theorem validate_unqualified_column_no_known_table_witness :
    validate_sql_schema (toL "SELECT id")
      [(toL "users", TableDesc.plainCols [toL "id"])]
      (some ⟨[], [toL "id"]⟩) = false :=
  validate_unqualified_column_no_known_table _ _ _ (toL "id")
    (by decide) (by decide) (by decide) (by decide) (by decide)
    (fun t ht => nomatch ht)

/-- Claim C1: with the plain list-of-columns variant the validator behaves as
specified (known qualified column accepted, unknown rejected), but with the
structured descriptor variant that database.load_schema_map itself builds,
the membership test hits the descriptor dict's keys and a known column of a
known table is rejected. -/
theorem validate_schema_variant_mismatch :
    validate_sql_schema (toL "SELECT users.id FROM users")
      [(toL "users", TableDesc.plainCols [toL "id", toL "name"])]
      (some ⟨[toL "users"], [toL "users.id"]⟩) = true
  ∧ validate_sql_schema (toL "SELECT users.salary FROM users")
      [(toL "users", TableDesc.plainCols [toL "id", toL "name"])]
      (some ⟨[toL "users"], [toL "users.salary"]⟩) = false
  ∧ validate_sql_schema (toL "SELECT users.id FROM users")
      (load_schema_map [⟨toL "users",
        [⟨toL "id", toL "INTEGER"⟩, ⟨toL "name", toL "TEXT"⟩], [toL "id"], []⟩])
      (some ⟨[toL "users"], [toL "users.id"]⟩) = false := by
  refine ⟨by decide, by decide, by decide⟩

/-!
The Plot-Shape Validator of validator.py, and the multi-character string
split and replace it relies on.  Both recursions are driven by a fuel
argument equal to the input length, so they stay structurally recursive and
evaluate inside the kernel; the fuel never runs out because every step
consumes at least one character.
-/

/-- Python str.split(sep) for a non-empty separator string; fuel-driven. -/
def pySplitAux (sep : List Char) : Nat → List Char → List (List Char)
  | _, [] => [[]]
  | 0, l => [l]
  | fuel + 1, c :: rest =>
    if !sep.isEmpty && sep.isPrefixOf (c :: rest) then
      [] :: pySplitAux sep fuel (rest.drop (sep.length - 1))
    else
      match pySplitAux sep fuel rest with
      | [] => [[c]]
      | s :: ss => (c :: s) :: ss

/-- Python str.split(sep). -/
def pySplit (sep l : List Char) : List (List Char) := pySplitAux sep l.length l

/-- Python str.replace(pat, repl) for a non-empty pattern; fuel-driven. -/
def pyReplaceAux (pat repl : List Char) : Nat → List Char → List Char
  | _, [] => []
  | 0, l => l
  | fuel + 1, c :: rest =>
    if !pat.isEmpty && pat.isPrefixOf (c :: rest) then
      repl ++ pyReplaceAux pat repl fuel (rest.drop (pat.length - 1))
    else
      c :: pyReplaceAux pat repl fuel rest

/-- Python str.replace(pat, repl). -/
def pyReplace (pat repl l : List Char) : List Char :=
  pyReplaceAux pat repl l.length l

/-- The aggregate-function names validate_plot_sql looks for in the value
column. -/
def AGG_KEYWORDS : List (List Char) :=
  [toL "COUNT", toL "SUM", toL "AVG", toL "MIN", toL "MAX"]

/-- The column expressions validate_plot_sql counts: the upper-cased text
before the first FROM, with every SELECT occurrence removed, split on
commas. -/
def plot_columns (sql : List Char) : List (List Char) :=
  let sql_upper := upperL sql
  let select_part := (pySplit (toL "FROM") sql_upper).headD []
  splitChar ',' (pyReplace (toL "SELECT") [] select_part)

/-- validate_plot_sql of validator.py: the statement must start with SELECT
(before any trimming), the naive comma split of the select clause must give
exactly two expressions, and the second must contain an aggregate name. -/
def validate_plot_sql (sql : List Char) : Bool :=
  if !((toL "SELECT").isPrefixOf (upperL sql)) then false
  else if (plot_columns sql).length ≠ 2 then false
  else AGG_KEYWORDS.any (fun k => isInfixL k ((plot_columns sql).getD 1 []))

/-- Claim C9: validate_plot_sql accepts only SELECT statements whose clause
before FROM splits on commas into exactly two expressions with an aggregate
name inside the second; the three example statements of the specification
evaluate as it states. -/
theorem validate_plot_sql_shape :
    (∀ sql : List Char, validate_plot_sql sql = true →
        (toL "SELECT").isPrefixOf (upperL sql) = true
      ∧ (plot_columns sql).length = 2
      ∧ AGG_KEYWORDS.any
          (fun k => isInfixL k ((plot_columns sql).getD 1 [])) = true)
  ∧ validate_plot_sql (toL "SELECT name, COUNT(*) FROM t GROUP BY name") = true
  ∧ validate_plot_sql
      (toL "SELECT name, dept, COUNT(*) FROM t GROUP BY name, dept") = false
  ∧ validate_plot_sql (toL "SELECT name, age FROM t") = false := by
  refine ⟨?_, by decide, by decide, by decide⟩
  intro sql h
  unfold validate_plot_sql at h
  split at h
  · exact absurd h (by simp)
  · split at h
    · exact absurd h (by simp)
    · rename_i h1 h2
      refine ⟨by simpa using h1, by omega, h⟩

/-!
The Schema Synchronizer: update_schema_context of schema_manager.py.

The source builds the description text and a fresh table-to-columns dict in
local variables while reading the inspector, then writes the text to the
schema file, and only after that write completes clears and repopulates the
process-wide map.  Database introspection is embedded as an optional
pre-read report (`none` when any inspector call raises, at which point only
local variables were touched) and the file write as a success flag; the
returned pair is the schema map after the call together with the text
written on success.
-/

/-- Python ", ".join. -/
def joinCommaSp (xs : List (List Char)) : List Char :=
  List.intercalate (toL ", ") xs

/-- The column lines of one CREATE TABLE block: four-space indent, name,
space, type, and a comma on every line but the last. -/
def colLines : List ColumnInfo → List Char
  | [] => []
  | [c] => toL "    " ++ c.name ++ toL " " ++ c.type ++ toL "\n"
  | c :: rest => toL "    " ++ c.name ++ toL " " ++ c.type ++ toL ",\n"
      ++ colLines rest

/-- One foreign key rendered as "(child_cols) references parent(parent_cols)". -/
def fk_str (fk : FKInfo) : List Char :=
  toL "(" ++ joinCommaSp fk.constrained_columns ++ toL ") references "
    ++ fk.referred_table ++ toL "(" ++ joinCommaSp fk.referred_columns ++ toL ")"

/-- The description block update_schema_context emits for one table. -/
def table_text (t : TableInfo) : List Char :=
  toL "CREATE TABLE " ++ t.name ++ toL " (\n"
    ++ colLines t.columns
    ++ toL ");\n"
    ++ (if t.pk_columns.isEmpty then []
        else toL "-- Primary Keys: " ++ joinCommaSp t.pk_columns ++ toL "\n")
    ++ (if t.fks.isEmpty then []
        else toL "-- Foreign Keys: " ++ joinCommaSp (t.fks.map fk_str) ++ toL "\n")
    ++ toL "\n"

/-- The whole persisted schema description text, tables in reported order. -/
def schema_text_of (db : List TableInfo) : List Char :=
  (db.map table_text).flatten

/-- The dynamic_schema_map local of update_schema_context: every table maps
to its column names in reported order. -/
def dynamic_schema_map_of (db : List TableInfo) :
    List (List Char × List (List Char)) :=
  db.map (fun t => (t.name, t.columns.map ColumnInfo.name))

/-- update_schema_context of schema_manager.py with its effects explicit:
given the introspection outcome, the write outcome and the schema map before
the call, return the schema map after the call and the description text
written (none when the call raised).  The map is replaced wholesale only
after a successful write, exactly as the source orders its statements. -/
def update_schema_context (introspection : Option (List TableInfo))
    (write_ok : Bool) (schema_map : List (List Char × List (List Char))) :
    List (List Char × List (List Char)) × Option (List Char) :=
  match introspection with
  | none => (schema_map, none)
  | some db =>
    if write_ok then (dynamic_schema_map_of db, some (schema_text_of db))
    else (schema_map, none)

/-- The two-table database of claim C6: users(id, name) and
orders(id, user_id) with a foreign key orders.user_id referencing users.id. -/
def demo_db : List TableInfo :=
  [⟨toL "users", [⟨toL "id", toL "INTEGER"⟩, ⟨toL "name", toL "TEXT"⟩],
    [toL "id"], []⟩,
   ⟨toL "orders", [⟨toL "id", toL "INTEGER"⟩, ⟨toL "user_id", toL "INTEGER"⟩],
    [toL "id"], [⟨[toL "user_id"], toL "users", [toL "id"]⟩]⟩]

/-- Claim C6: after a refresh against the two-table demo database, from any
prior map, the schema map holds exactly users and orders with their reported
columns in order, and the persisted text contains the foreign-key comment
referencing users(id). -/
theorem update_schema_context_demo (prior : List (List Char × List (List Char))) :
    (update_schema_context (some demo_db) true prior).1
      = [(toL "users", [toL "id", toL "name"]),
         (toL "orders", [toL "id", toL "user_id"])]
  ∧ isInfixL (toL "-- Foreign Keys: (user_id) references users(id)")
      ((update_schema_context (some demo_db) true prior).2.getD []) = true := by
  exact ⟨rfl, rfl⟩

/-- Claim C7: when introspection or the description-file write fails, the
call reports the error and the schema map is exactly what it was before the
refresh began. -/
theorem update_schema_context_failure_keeps_map
    (introspection : Option (List TableInfo)) (write_ok : Bool)
    (schema_map : List (List Char × List (List Char)))
    (hfail : introspection = none ∨ write_ok = false) :
    update_schema_context introspection write_ok schema_map
      = (schema_map, none) := by
  rcases hfail with h | h
  · rw [h]
    rfl
  · cases introspection with
    | none => rfl
    | some db =>
      simp only [update_schema_context]
      rw [h]
      simp

theorem update_schema_context_failure_keeps_map_witness :
    update_schema_context (some demo_db) false
      [(toL "legacy", [toL "col"])]
      = ([(toL "legacy", [toL "col"])], none) :=
  update_schema_context_failure_keeps_map _ _ _ (Or.inr rfl)

/-- Claim C8: refreshing twice against an unchanged database is idempotent —
the second call, started from the first call's map, returns the same map and
the byte-identical description text. -/
theorem update_schema_context_idempotent (db : List TableInfo)
    (schema_map : List (List Char × List (List Char))) :
    update_schema_context (some db) true
        (update_schema_context (some db) true schema_map).1
      = update_schema_context (some db) true schema_map := by
  simp [update_schema_context]

end MindSQL
